import Mathlib

/-!
Verification of the trendcsv-scraper normalization pipeline.

Shallow embedding of the pure normalization logic of the four pipelines:
  scripts/python/scrape_google_trends.py   (namespace GTrends)
  scripts/python/scrape_reddit_enhanced.py (namespace Reddit)
  scripts/ingest_wikipedia_trends.py       (namespace Wiki)
  scripts/ingest_youtube_trends.py         (namespace YT)

Python strings are modelled as Lean `String` / `List Char`; Python floats as
exact rationals `ℚ` (every concrete value used by the claims is exactly
representable, e.g. 1.5, 0.25, 0.5); wall-clock reads are modelled by an
explicit clock: a function `ℕ → String` (or a rational number of seconds)
whose successive reads are threaded exactly where the code calls
`datetime.now()` / `datetime.utcnow()`.
-/

namespace TrendCsv

/-! ### Python string primitives -/

/-- The ASCII whitespace characters recognised by Python `str.strip` /
`str.split` (the Unicode extras are irrelevant to these scrapers). -/
def pyWhitespace : List Char := [' ', '\t', '\n', '\r', '\x0b', '\x0c']

def isPySpace (c : Char) : Bool := pyWhitespace.contains c

/-- Python `str.strip()`: drop leading and trailing whitespace. -/
def strip (l : List Char) : List Char :=
  ((l.dropWhile isPySpace).reverse.dropWhile isPySpace).reverse

/-- Python `str.lower()` (ASCII case mapping). -/
def lowerList (l : List Char) : List Char := l.map Char.toLower

/-- Python `str.replace(a, b)` for single-character `a` and `b`. -/
def replaceChar (a b : Char) (l : List Char) : List Char :=
  l.map fun c => if c = a then b else c

/-- Python `str.split()` with no argument: split on whitespace runs,
dropping empty pieces. -/
def splitWs (l : List Char) : List (List Char) :=
  (l.foldr
    (fun c acc =>
      if isPySpace c then [] :: acc
      else
        match acc with
        | [] => [[c]]
        | w :: ws => (c :: w) :: ws)
    []).filter fun w => !w.isEmpty

/-- Python `sub in s` for strings: contiguous substring test. -/
def isSubstrOf (sub : List Char) : List Char → Bool
  | [] => sub.isEmpty
  | c :: rest => sub.isPrefixOf (c :: rest) || isSubstrOf sub rest

/-- Numeric value of a run of ASCII digits. -/
def natOfDigits (ds : List Char) : ℕ :=
  ds.foldl (fun acc c => acc * 10 + (c.toNat - 48)) 0

/-! ### scrape_google_trends.py : parse_search_volume -/

/-- First match of the regex `\d+(?:\.\d+)?` in a string, as an exact
rational (the code converts the match with `float`; all claim-relevant
values are exactly representable, so the rational model is faithful).
`re.search` scans left to right for the first digit; the digit run is
maximal, and a following `.digits` fragment is consumed greedily. -/
def findDecimal : List Char → Option ℚ
  | [] => none
  | c :: rest =>
    if c.isDigit then
      let ds := (c :: rest).takeWhile Char.isDigit
      let r1 := (c :: rest).dropWhile Char.isDigit
      let ip : ℚ := (natOfDigits ds : ℚ)
      match r1 with
      | '.' :: r2 =>
        let fs := r2.takeWhile Char.isDigit
        if fs.isEmpty then some ip
        else some (ip + (natOfDigits fs : ℚ) / (10 : ℚ) ^ fs.length)
      | _ => some ip
    else findDecimal rest

/-- First match of the regex `\d+`: the first maximal digit run. -/
def findInt : List Char → Option ℕ
  | [] => none
  | c :: rest =>
    if c.isDigit then some (natOfDigits ((c :: rest).takeWhile Char.isDigit))
    else findInt rest

/-- Python `int(float_value * mult)` for a non-negative operand: truncation
towards zero, which is the floor here. -/
def truncScale (mult : ℕ) (q : ℚ) : ℕ := (⌊q * (mult : ℚ)⌋).toNat

/-- scrape_google_trends.py, `parse_search_volume` (lines 28-55): parse a
search-volume string such as "1.5M", "500K+" or "12345" to an integer.
The stripped, lower-cased input is scanned; a value containing `m` (checked
first) scales the first decimal number by 1,000,000, else one containing
`k` scales it by 1,000, else the first integer run is taken; anything
unparseable yields 0. -/
def parse_search_volume (volume_str : String) : ℕ :=
  if strip volume_str.toList = [] then 0
  else if (lowerList (strip volume_str.toList)).contains 'm' then
    match findDecimal (lowerList (strip volume_str.toList)) with
    | some q => truncScale 1000000 q
    | none => 0
  else if (lowerList (strip volume_str.toList)).contains 'k' then
    match findDecimal (lowerList (strip volume_str.toList)) with
    | some q => truncScale 1000 q
    | none => 0
  else
    match findInt (lowerList (strip volume_str.toList)) with
    | some n => n
    | none => 0

lemma findDecimal_eq_none_of_no_digit (l : List Char)
    (h : ∀ c ∈ l, c.isDigit = false) : findDecimal l = none := by
  induction l with
  | nil => rfl
  | cons c rest ih =>
    have hc : c.isDigit = false := h c (List.mem_cons_self c rest)
    simp only [findDecimal, hc]
    exact ih fun x hx => h x (List.mem_cons_of_mem c hx)

lemma findInt_eq_none_of_no_digit (l : List Char)
    (h : ∀ c ∈ l, c.isDigit = false) : findInt l = none := by
  induction l with
  | nil => rfl
  | cons c rest ih =>
    have hc : c.isDigit = false := h c (List.mem_cons_self c rest)
    simp only [findInt, hc]
    exact ih fun x hx => h x (List.mem_cons_of_mem c hx)

lemma ule_iff {x y : UInt32} : x ≤ y ↔ x.toNat ≤ y.toNat := Iff.rfl

lemma char_toNat_ofNat_of_valid {n : ℕ} (h : n < 0xd800) : (Char.ofNat n).toNat = n := by
  rw [Char.ofNat, dif_pos (Or.inl h)]
  rfl

lemma isDigit_iff {c : Char} : c.isDigit = true ↔ 48 ≤ c.toNat ∧ c.toNat ≤ 57 := by
  simp only [Char.isDigit, Bool.and_eq_true, decide_eq_true_eq, ge_iff_le]
  constructor
  · rintro ⟨h1, h2⟩
    exact ⟨ule_iff.mp h1, by simpa [UInt32.toNat_ofNat] using ule_iff.mp h2⟩
  · rintro ⟨h1, h2⟩
    exact ⟨ule_iff.mpr (by simpa), ule_iff.mpr (by simpa [UInt32.toNat_ofNat])⟩

lemma toLower_isDigit (c : Char) : c.toLower.isDigit = c.isDigit := by
  simp only [Char.toLower]
  split
  · next h =>
    obtain ⟨h1, h2⟩ := h
    have hv : (Char.ofNat (c.toNat + 32)).toNat = c.toNat + 32 :=
      char_toNat_ofNat_of_valid (by omega)
    have hd1 : (Char.ofNat (c.toNat + 32)).isDigit = false := by
      rw [Bool.eq_false_iff]
      intro hcon
      have := isDigit_iff.mp hcon
      omega
    have hd2 : c.isDigit = false := by
      rw [Bool.eq_false_iff]
      intro hcon
      have := isDigit_iff.mp hcon
      omega
    rw [hd1, hd2]
  · rfl

lemma lowerList_no_digit {l : List Char} (h : ∀ c ∈ l, c.isDigit = false) :
    ∀ c ∈ lowerList l, c.isDigit = false := by
  intro c hc
  rcases List.mem_map.mp hc with ⟨d, hd, rfl⟩
  rw [toLower_isDigit]
  exact h d hd

lemma strip_no_digit {l : List Char} (h : ∀ c ∈ l, c.isDigit = false) :
    ∀ c ∈ strip l, c.isDigit = false := by
  intro c hc
  apply h
  unfold strip at hc
  have h1 := List.dropWhile_sublist (l := l) (p := isPySpace)
  have h2 := List.dropWhile_sublist (l := (l.dropWhile isPySpace).reverse) (p := isPySpace)
  have : c ∈ (l.dropWhile isPySpace).reverse := h2.mem (List.mem_reverse.mp hc)
  exact h1.mem (List.mem_reverse.mp this)

/-- C1: the metric parser is total into ℕ (never raises, never negative by
construction); it maps "1.5M" to 1500000, "500K+" to 500000, "12345" to
12345, "" and "n/a" to 0; and every input containing no digit at all
(in particular whitespace-only or unparseable input) yields 0. -/
theorem C1_parse_magnitude :
    parse_search_volume ("1.5M") = 1500000 ∧
    parse_search_volume ("500K+") = 500000 ∧
    parse_search_volume ("12345") = 12345 ∧
    parse_search_volume ("") = 0 ∧
    parse_search_volume ("n/a") = 0 ∧
    (∀ s : String, (∀ c ∈ s.toList, c.isDigit = false) → parse_search_volume s = 0) := by
  refine ⟨?_, ?_, by decide, by decide, by decide, ?_⟩
  · have h : parse_search_volume ("1.5M") = truncScale 1000000 (1 + (5 : ℚ) / 10 ^ 1) := by rfl
    rw [h]
    unfold truncScale
    norm_num
    rfl
  · have h : parse_search_volume ("500K+") = truncScale 1000 ((500 : ℚ)) := by rfl
    rw [h]
    unfold truncScale
    norm_num
    rfl
  · intro s hs
    unfold parse_search_volume
    by_cases hempty : strip s.toList = []
    · rw [if_pos hempty]
    · have hnod : ∀ c ∈ lowerList (strip s.toList), c.isDigit = false :=
        lowerList_no_digit (strip_no_digit hs)
      have hdec := findDecimal_eq_none_of_no_digit _ hnod
      have hint := findInt_eq_none_of_no_digit _ hnod
      rw [if_neg hempty]
      simp only [hdec, hint]
      split <;> try rfl
      split <;> rfl

/-! ### ingest_wikipedia_trends.py : noise classifier and slug -/

namespace Wiki

def STOP_TITLES : List String := ["Main_Page"]

def STOP_PREFIXES : List String := ["Special:"]

def STOP_NAMESPACES : List String :=
  ["Wikipedia:", "Help:", "Category:", "Talk:", "Portal:", "File:", "Template:",
   "User:", "Draft:", "Module:", "MediaWiki:", "TimedText:", "Book:", "Gadget:", "Topic:"]

def INAPPROPRIATE_WORDS : List String :=
  ["xxx", ".xxx", "porn", "sex", "adult", "nsfw", "explicit", "mature"]

def monthsLower : List (List Char) :=
  [("january").toList, ("february").toList, ("march").toList, ("april").toList,
   ("may").toList, ("june").toList, ("july").toList, ("august").toList,
   ("september").toList, ("october").toList, ("november").toList, ("december").toList]

/-- The `(,_\d{4})?$` tail of DATE_RE: either nothing, or exactly `,_`
followed by four digits to the end of the string. -/
def matchCommaYear : List Char → Bool
  | ',' :: '_' :: ds => decide (ds.length = 4) && ds.all Char.isDigit
  | _ => false

/-- DATE_RE `^(January|...|December)_(\d{1,2})(,_\d{4})?$` with re.I, applied
to the lower-cased title. The digit run after the month is maximal; since the
character after `\d{1,2}` in the pattern is `,` or end-of-string (never a
digit), the regex matches exactly when that maximal run has length 1 or 2
and the remainder is empty or `,_` plus four digits. -/
def matchDate (lower : List Char) : Bool :=
  monthsLower.any fun m =>
    (m ++ ['_']).isPrefixOf lower &&
    (decide (1 ≤ ((lower.drop (m.length + 1)).takeWhile Char.isDigit).length) &&
     decide (((lower.drop (m.length + 1)).takeWhile Char.isDigit).length ≤ 2) &&
     (let rest := (lower.drop (m.length + 1)).drop
        ((lower.drop (m.length + 1)).takeWhile Char.isDigit).length
      rest.isEmpty || matchCommaYear rest))

/-- YEAR_RE `^\d{4}$`: exactly four digits. -/
def matchYear (title : List Char) : Bool :=
  decide (title.length = 4) && title.all Char.isDigit

/-- YEAR_IN_RE `^\d{4}_in_` with re.I, on the lower-cased title. -/
def matchYearIn : List Char → Bool
  | a :: b :: c :: d :: rest =>
    a.isDigit && b.isDigit && c.isDigit && d.isDigit && ("_in_").toList.isPrefixOf rest
  | _ => false

/-- LIST_RE `^List_of_` with re.I, on the lower-cased title. -/
def matchListOf (lower : List Char) : Bool :=
  ("list_of_").toList.isPrefixOf lower

/-- DEATHS_RE `^Deaths_in_\d{4}$` with re.I, on the lower-cased title. -/
def matchDeaths (lower : List Char) : Bool :=
  ("deaths_in_").toList.isPrefixOf lower &&
  decide ((lower.drop 10).length = 4) && (lower.drop 10).all Char.isDigit

/-- ingest_wikipedia_trends.py, `looks_like_noise` (lines 35-50): the early
`return True` chain is an OR of independent checks. -/
def looks_like_noise (title : String) : Bool :=
  if STOP_TITLES.any fun s => title == s then true
  else if STOP_PREFIXES.any fun p => p.toList.isPrefixOf title.toList then true
  else if STOP_NAMESPACES.any fun ns => ns.toList.isPrefixOf title.toList then true
  else if title.toList.contains ':' then true
  else if matchDate (lowerList title.toList) then true
  else if matchYear title.toList then true
  else if matchYearIn (lowerList title.toList) then true
  else if matchListOf (lowerList title.toList) then true
  else if matchDeaths (lowerList title.toList) then true
  else if INAPPROPRIATE_WORDS.any fun w => isSubstrOf w.toList (lowerList title.toList) then true
  else false

/-- ingest_wikipedia_trends.py, `to_slug` (lines 135-137):
`text.lower().replace(" ", "-").replace("_", "-")`. A single-character
`str.replace` is a character-wise map. -/
def to_slug (text : String) : String :=
  String.mk (replaceChar '_' '-' (replaceChar ' ' '-' (lowerList text.toList)))

end Wiki

set_option maxHeartbeats 1600000 in
/-- C3: `looks_like_noise` returns true exactly for titles in the stoplist,
with the hard-stop or a meta-namespace prefix, containing the `:` separator,
matching the date / bare-year / Year_in / List_of / Deaths_in patterns, or
whose lower-casing contains a profanity/adult substring; and it returns
false on the representative normal title "Artificial_intelligence".
Representative members of each category are checked concretely. -/
theorem C3_noise_classifier :
    (∀ t : String,
      Wiki.looks_like_noise t = true ↔
        ((Wiki.STOP_TITLES.any fun s => t == s) = true ∨
         (Wiki.STOP_PREFIXES.any fun p => p.toList.isPrefixOf t.toList) = true ∨
         (Wiki.STOP_NAMESPACES.any fun ns => ns.toList.isPrefixOf t.toList) = true ∨
         t.toList.contains ':' = true ∨
         Wiki.matchDate (lowerList t.toList) = true ∨
         Wiki.matchYear t.toList = true ∨
         Wiki.matchYearIn (lowerList t.toList) = true ∨
         Wiki.matchListOf (lowerList t.toList) = true ∨
         Wiki.matchDeaths (lowerList t.toList) = true ∨
         (Wiki.INAPPROPRIATE_WORDS.any fun w =>
           isSubstrOf w.toList (lowerList t.toList)) = true)) ∧
    Wiki.looks_like_noise ("Main_Page") = true ∧
    Wiki.looks_like_noise ("Special:Search") = true ∧
    Wiki.looks_like_noise ("Talk:Foo") = true ∧
    Wiki.looks_like_noise ("Category:Physics") = true ∧
    Wiki.looks_like_noise ("July_4,_2024") = true ∧
    Wiki.looks_like_noise ("July_4") = true ∧
    Wiki.looks_like_noise ("2024") = true ∧
    Wiki.looks_like_noise ("2024_in_film") = true ∧
    Wiki.looks_like_noise ("List_of_sovereign_states") = true ∧
    Wiki.looks_like_noise ("Deaths_in_2024") = true ∧
    Wiki.looks_like_noise ("Middlesex") = true ∧
    Wiki.looks_like_noise ("Artificial_intelligence") = false := by
  refine ⟨?_, by decide, by decide, by decide, by decide, by decide, by decide,
    by decide, by decide, by decide, by decide, by decide, by decide⟩
  intro t
  unfold Wiki.looks_like_noise
  split_ifs <;> simp_all

/-! ### Python list.sort(key=..., reverse=True): a stable descending sort -/

/-- Stable descending insertion: `x` passes every already-placed element
with a strictly larger key and lands before the first element whose key is
less than or equal to its own, so input order is preserved among equal
keys — the contract of Python `list.sort(key=..., reverse=True)`. -/
def insertDesc {α : Type} (key : α → ℚ) (x : α) : List α → List α
  | [] => [x]
  | y :: ys => if key x < key y then y :: insertDesc key x ys else x :: y :: ys

/-- Python `list.sort(key=..., reverse=True)`: stable, descending in the key. -/
def sortDesc {α : Type} (key : α → ℚ) : List α → List α
  | [] => []
  | x :: xs => insertDesc key x (sortDesc key xs)

/-! ### scrape_reddit_enhanced.py -/

namespace Reddit

/-- One `child["data"]` payload of a Reddit listing: the fields read by
`normalize_items`. Absent dictionary keys are `none`. A child whose `data`
is empty is skipped by the `if not d` guard and is not represented here.
`score` is `float(d.get("score", 0))`, an exact rational in this model;
`num_comments` is `int(d.get("num_comments", 0))`. -/
structure Item where
  stickied : Bool
  removed_by_category : Option String
  title : Option String
  permalink : Option String
  url_overridden_by_dest : Option String
  subreddit : Option String
  created_utc : Option ℚ
  score : ℚ
  num_comments : ℤ
deriving DecidableEq

/-- One normalized Reddit row. `observed_at` models
`now.replace(microsecond=0).isoformat() + "Z"`: the run's single clock
read truncated to whole seconds (the ISO rendering is presentation only). -/
structure Row where
  source : String
  title : String
  url : String
  region : String
  observed_at : ℤ
  raw_metric : ℚ
  subreddit : String
  score : ℤ
  age_hours : ℚ
  num_comments : ℤ
  listing_type : String
deriving DecidableEq

/-- Python truthiness of `d.get("removed_by_category")`: a present,
non-empty string. -/
def truthyStr : Option String → Bool
  | some s => decide (s ≠ "")
  | none => false

/-- Python `round` to an integer: round half to even. -/
def pyRound (x : ℚ) : ℤ :=
  if x - ⌊x⌋ < 1 / 2 then ⌊x⌋
  else if 1 / 2 < x - ⌊x⌋ then ⌊x⌋ + 1
  else if 2 ∣ ⌊x⌋ then ⌊x⌋ else ⌊x⌋ + 1

/-- Python `round(x, d)`: round at the d-th decimal digit, half to even
(float half-ulp artefacts are not modelled; no claim rests on a tie). -/
def roundTo (d : ℕ) (x : ℚ) : ℚ := (pyRound (x * 10 ^ d) : ℚ) / 10 ^ d

/-- Python `int()` on a float: truncation towards zero. -/
def truncInt (q : ℚ) : ℤ := if q < 0 then ⌈q⌉ else ⌊q⌋

/-- scrape_reddit_enhanced.py, `normalize_items` (lines 36-67). `now` is the
single `dt.datetime.utcnow()` read at function entry, as rational seconds;
`tnow` models the `time.time()` default used when an item lacks
`created_utc`; `kind` is the listing type ("rising" or "hot"). Items are
processed in input order; stickied or removed items are skipped. -/
def normalize_items (now tnow : ℚ) (kind : String) : List Item → List Row
  | [] => []
  | d :: rest =>
    if d.stickied || truthyStr d.removed_by_category then
      normalize_items now tnow kind rest
    else
      { source := "reddit",
        title := d.title.getD (""),
        url :=
          if d.permalink.getD ("") ≠ "" then
            "https://reddit.com" ++ d.permalink.getD ("")
          else d.url_overridden_by_dest.getD (""),
        region := "GLOBAL",
        observed_at := ⌊now⌋,
        raw_metric :=
          roundTo 4 (d.score / max ((now - d.created_utc.getD tnow) / 3600) (1 / 4)),
        subreddit := d.subreddit.getD (""),
        score := truncInt d.score,
        age_hours := roundTo 2 (max ((now - d.created_utc.getD tnow) / 3600) (1 / 4)),
        num_comments := d.num_comments,
        listing_type := kind } :: normalize_items now tnow kind rest

/-- The identity key of `write_combined_csv` (line 78): lower-cased title
and lower-cased subreddit. -/
def rowKey (r : Row) : List Char × List Char :=
  (lowerList r.title.toList, lowerList r.subreddit.toList)

/-- The duplicate-removal loop of `write_combined_csv` (lines 74-81): a
`seen` set of keys; a row whose key was already seen is dropped, otherwise
it is kept and its key recorded. -/
def dedupeAux (seen : List (List Char × List Char)) : List Row → List Row
  | [] => []
  | r :: rs =>
    if rowKey r ∈ seen then dedupeAux seen rs
    else r :: dedupeAux (rowKey r :: seen) rs

def dedupe (rows : List Row) : List Row := dedupeAux [] rows

/-- scrape_reddit_enhanced.py, `write_combined_csv` (lines 69-94), pure
part: duplicate removal, then
`unique_rows.sort(key=lambda x: x["raw_metric"], reverse=True)`. -/
def write_combined_csv (all_rows : List Row) : List Row :=
  sortDesc (fun r => r.raw_metric) (dedupe all_rows)

end Reddit

/-! ### ingest_wikipedia_trends.py : records -/

namespace Wiki

/-- One element of the `real` list built by `fetch_wiki_top_real`
(lines 95-104): noise filtering and the Summary-API check happened
upstream. `description` and `thumbnail` can be absent (None). -/
structure Article where
  source : String
  title : String
  url : String
  region : String
  raw_metric : ℕ
  description : Option String
  thumbnail : Option String
  lang : String
deriving DecidableEq

/-- One normalized topic of `extract_trending_topics` (lines 119-131).
`raw_metric` is `str(article["raw_metric"])`; `score` is exact rational. -/
structure Topic where
  source : String
  title : String
  slug : String
  url : String
  region : String
  observed_at : String
  raw_metric : String
  score : ℚ
  description : String
  thumbnail : String
  lang : String
deriving DecidableEq

/-- The `real.sort(key=lambda x: x["raw_metric"], reverse=True)` step of
`fetch_wiki_top_real` (line 107). -/
def sort_by_views (real : List Article) : List Article :=
  sortDesc (fun a => (a.raw_metric : ℚ)) real

/-- ingest_wikipedia_trends.py, `extract_trending_topics` (lines 110-133).
`clock` models `datetime.datetime.now(timezone.utc).isoformat()`: the
function reads it exactly once (read index 0), before the loop, and stamps
every topic with that one value. -/
def extract_trending_topics (clock : ℕ → String) (articles : List Article) : List Topic :=
  articles.map fun article =>
    { source := article.source,
      title := article.title,
      slug := to_slug article.title,
      url := article.url,
      region := article.region,
      observed_at := clock 0,
      raw_metric := toString article.raw_metric,
      score := min ((article.raw_metric : ℚ) / 1000) 1000,
      description := article.description.getD (""),
      thumbnail := article.thumbnail.getD (""),
      lang := article.lang }

end Wiki

/-! ### ingest_youtube_trends.py -/

namespace YT

/-- One item of the YouTube API response: the fields read by
`extract_trending_topics`. `viewCount` models
`int(statistics.get('viewCount', 0))` (a video whose viewCount string is
unparseable raises inside the per-video `try` and is skipped; such items
are not represented). `id` is `video.get('id')`, absent rendered as
"None" by the f-string. -/
structure Video where
  id : Option String
  title : String
  viewCount : ℕ
  channelTitle : String
  publishedAt : String
  description : String
deriving DecidableEq

/-- One normalized topic of `extract_trending_topics` (lines 103-115). -/
structure Topic where
  source : String
  title : String
  slug : String
  url : String
  region : String
  observed_at : String
  raw_metric : ℕ
  score : ℚ
  channel : String
  published_at : String
  description : String
deriving DecidableEq

/-- The f-string rendering of `video.get('id')`. -/
def idText : Option String → String
  | some s => s
  | none => "None"

/-- The slug derivation of lines 95-97: lower-case, keep alphanumerics and
whitespace, join the first five whitespace-separated words with hyphens. -/
def mkSlug (title : String) : String :=
  String.intercalate "-"
    ((splitWs ((lowerList title.toList).filter
        fun c => c.isAlphanum || isPySpace c)).take 5 |>.map String.mk)

/-- The per-video loop body of `extract_trending_topics` (lines 81-121):
trim the title, skip the video when it is empty, otherwise emit a topic. -/
def extractGo (now : String) : List Video → List Topic
  | [] => []
  | video :: rest =>
    if String.mk (strip video.title.toList) = "" then extractGo now rest
    else
      { source := "youtube",
        title := String.mk (strip video.title.toList),
        slug := mkSlug (String.mk (strip video.title.toList)),
        url := "https://www.youtube.com/watch?v=" ++ idText video.id,
        region := "US",
        observed_at := now,
        raw_metric := video.viewCount,
        score := min ((video.viewCount : ℚ) / 1000) 1000,
        channel := video.channelTitle,
        published_at := video.publishedAt,
        description := String.mk (video.description.toList.take 200) } :: extractGo now rest

/-- ingest_youtube_trends.py, `extract_trending_topics` (lines 68-123).
`clock` models `datetime.now(timezone.utc).isoformat()`: read exactly once
(read index 0), before the loop. -/
def extract_trending_topics (clock : ℕ → String) (videos : List Video) : List Topic :=
  extractGo (clock 0) videos

end YT

/-! ### scrape_google_trends.py : process_csv_to_schema -/

namespace GTrends

def MIN_SEARCH_VOLUME : ℕ := 5000

/-- One row of the downloaded CSV as `csv.DictReader` yields it: the two
columns `process_csv_to_schema` reads, absent columns `none`. -/
structure CsvRow where
  searchVolume : Option String
  trends : Option String
deriving DecidableEq

/-- One record of the output schema (lines 238-245). -/
structure Trend where
  source : String
  title : String
  url : String
  region : String
  observed_at : String
  raw_metric : ℕ
deriving DecidableEq

/-- The row loop of `process_csv_to_schema` (lines 230-245). `clock` models
`datetime.now().isoformat()`; the code calls it inside the loop, once per
record appended, so the k-th appended record receives clock read k. -/
def processRows (region : String) (clock : ℕ → String) (k : ℕ) : List CsvRow → List Trend
  | [] => []
  | row :: rest =>
    if MIN_SEARCH_VOLUME ≤ parse_search_volume (row.searchVolume.getD ("0")) then
      { source := "google_trends",
        title := row.trends.getD ("Unknown"),
        url := "https://www.google.com/search?q=" ++
          String.mk (replaceChar ' ' '+' (row.trends.getD ("Unknown")).toList),
        region := region,
        observed_at := clock k,
        raw_metric := 1 } :: processRows region clock (k + 1) rest
    else processRows region clock k rest

/-- scrape_google_trends.py, `process_csv_to_schema` (lines 217-257), pure
part: the per-row filter-and-normalize loop (file existence, CSV reading
and the empty-result fallback are I/O, out of scope). -/
def process_csv_to_schema (region : String) (clock : ℕ → String)
    (rows : List CsvRow) : List Trend :=
  processRows region clock 0 rows

end GTrends

/-! ### Deduplication lemmas -/

namespace Reddit

lemma dedupeAux_sublist : ∀ (rows : List Row) (seen),
    (dedupeAux seen rows).Sublist rows := by
  intro rows
  induction rows with
  | nil => intro seen; exact List.Sublist.refl _
  | cons r rs ih =>
    intro seen
    unfold dedupeAux
    split
    · exact (ih seen).cons r
    · exact (ih _).cons₂ r

lemma dedupeAux_key_not_seen : ∀ (rows : List Row) (seen) (r : Row),
    r ∈ dedupeAux seen rows → rowKey r ∉ seen := by
  intro rows
  induction rows with
  | nil => intro seen r h; simp [dedupeAux] at h
  | cons x rs ih =>
    intro seen r h
    unfold dedupeAux at h
    split at h
    · exact ih seen r h
    · next hx =>
      rcases List.mem_cons.mp h with he | hm
      · subst he; exact hx
      · intro hc
        exact ih _ r hm (List.mem_cons_of_mem _ hc)

lemma dedupeAux_keys_nodup : ∀ (rows : List Row) (seen),
    ((dedupeAux seen rows).map rowKey).Nodup := by
  intro rows
  induction rows with
  | nil => intro seen; simp [dedupeAux]
  | cons x rs ih =>
    intro seen
    unfold dedupeAux
    split
    · exact ih seen
    · simp only [List.map_cons, List.nodup_cons]
      refine ⟨?_, ih _⟩
      intro hc
      rcases List.mem_map.mp hc with ⟨r, hr, hkey⟩
      exact dedupeAux_key_not_seen rs _ r hr (hkey ▸ List.mem_cons_self _ _)

lemma dedupeAux_find_first : ∀ (rows : List Row) (seen) (k),
    k ∉ seen →
    (dedupeAux seen rows).find? (fun r => decide (rowKey r = k)) =
      rows.find? (fun r => decide (rowKey r = k)) := by
  intro rows
  induction rows with
  | nil => intro seen k _; rfl
  | cons x rs ih =>
    intro seen k hk
    unfold dedupeAux
    split
    · next hmem =>
      have hne : rowKey x ≠ k := fun hc => hk (hc ▸ hmem)
      rw [List.find?_cons_of_neg _ (by simpa using hne), ih seen k hk]
    · next hmem =>
      by_cases hxk : rowKey x = k
      · rw [List.find?_cons_of_pos _ (by simpa using hxk),
          List.find?_cons_of_pos _ (by simpa using hxk)]
      · rw [List.find?_cons_of_neg _ (by simpa using hxk),
          List.find?_cons_of_neg _ (by simpa using hxk)]
        refine ih _ k ?_
        intro hc
        rcases List.mem_cons.mp hc with he | hm
        · exact hxk he.symm
        · exact hk hm

end Reddit

/-- C4: deduplication for the forum source keeps exactly one row per
distinct `(lowercased title, lowercased subreddit)` key, keeps them in
input order (the result is a sublist of the input), the survivor for every
key is the first input row bearing it — irrespective of any score — and a
key present in the input is always represented in the output (nothing is
dropped for any other reason). -/
theorem C4_dedupe_first_seen_wins :
    ∀ rows : List Reddit.Row,
      (Reddit.dedupe rows).Sublist rows ∧
      ((Reddit.dedupe rows).map Reddit.rowKey).Nodup ∧
      (∀ k, (Reddit.dedupe rows).find? (fun r => decide (Reddit.rowKey r = k)) =
            rows.find? (fun r => decide (Reddit.rowKey r = k))) ∧
      (∀ r ∈ rows, ∃ s ∈ Reddit.dedupe rows, Reddit.rowKey s = Reddit.rowKey r) := by
  intro rows
  refine ⟨Reddit.dedupeAux_sublist rows [], Reddit.dedupeAux_keys_nodup rows [],
    fun k => Reddit.dedupeAux_find_first rows [] k (List.not_mem_nil k), ?_⟩
  intro r hr
  have hne : rows.find? (fun x => decide (Reddit.rowKey x = Reddit.rowKey r)) ≠ none := by
    intro hc
    rw [List.find?_eq_none] at hc
    exact hc r hr (by simp)
  have hdd : (Reddit.dedupe rows).find? (fun x => decide (Reddit.rowKey x = Reddit.rowKey r)) ≠ none := by
    unfold Reddit.dedupe
    rw [Reddit.dedupeAux_find_first rows [] _ (List.not_mem_nil _)]
    exact hne
  rcases Option.ne_none_iff_exists'.mp hdd with ⟨s, hs⟩
  exact ⟨s, List.mem_of_find?_eq_some hs, by simpa using List.find?_some hs⟩

/-! ### Sorting lemmas -/

lemma insertDesc_perm {α : Type} (key : α → ℚ) (x : α) :
    ∀ l : List α, (insertDesc key x l).Perm (x :: l) := by
  intro l
  induction l with
  | nil => exact List.Perm.refl _
  | cons y ys ih =>
    unfold insertDesc
    split
    · exact (ih.cons y).trans (List.Perm.swap x y ys)
    · exact List.Perm.refl _

lemma sortDesc_perm {α : Type} (key : α → ℚ) :
    ∀ l : List α, (sortDesc key l).Perm l := by
  intro l
  induction l with
  | nil => exact List.Perm.refl _
  | cons x xs ih =>
    unfold sortDesc
    exact (insertDesc_perm key x _).trans (ih.cons x)

lemma mem_insertDesc {α : Type} {key : α → ℚ} {x z : α} {l : List α} :
    z ∈ insertDesc key x l ↔ z = x ∨ z ∈ l := by
  rw [(insertDesc_perm key x l).mem_iff, List.mem_cons]

lemma insertDesc_pairwise {α : Type} (key : α → ℚ) (x : α) :
    ∀ l : List α, l.Pairwise (fun a b => key b ≤ key a) →
      (insertDesc key x l).Pairwise (fun a b => key b ≤ key a) := by
  intro l
  induction l with
  | nil => intro _; simp [insertDesc]
  | cons y ys ih =>
    intro h
    rcases List.pairwise_cons.mp h with ⟨hy, hys⟩
    unfold insertDesc
    split
    · next hlt =>
      refine List.pairwise_cons.mpr ⟨?_, ih hys⟩
      intro z hz
      rcases mem_insertDesc.mp hz with rfl | hzys
      · exact le_of_lt hlt
      · exact hy z hzys
    · next hge =>
      push_neg at hge
      refine List.pairwise_cons.mpr ⟨?_, h⟩
      intro z hz
      rcases List.mem_cons.mp hz with rfl | hzys
      · exact hge
      · exact le_trans (hy z hzys) hge

lemma sortDesc_pairwise {α : Type} (key : α → ℚ) :
    ∀ l : List α, (sortDesc key l).Pairwise (fun a b => key b ≤ key a) := by
  intro l
  induction l with
  | nil => simp [sortDesc]
  | cons x xs ih =>
    unfold sortDesc
    exact insertDesc_pairwise key x _ ih

lemma insertDesc_filter_key {α : Type} (key : α → ℚ) (x : α) (c : ℚ) :
    ∀ l : List α,
      (insertDesc key x l).filter (fun a => decide (key a = c)) =
        if key x = c then x :: l.filter (fun a => decide (key a = c))
        else l.filter (fun a => decide (key a = c)) := by
  intro l
  induction l with
  | nil =>
    by_cases hx : key x = c <;> simp [insertDesc, hx, List.filter]
  | cons y ys ih =>
    unfold insertDesc
    split
    · next hlt =>
      by_cases hyc : key y = c
      · have hxc : ¬ key x = c := by
          intro hxc
          rw [hxc, ← hyc] at hlt
          exact lt_irrefl _ hlt
        simp [List.filter_cons, hyc, hxc, ih]
      · simp [List.filter_cons, hyc, ih]
    · next hge =>
      by_cases hxc : key x = c <;> simp [List.filter_cons, hxc]

lemma sortDesc_filter_key {α : Type} (key : α → ℚ) (c : ℚ) :
    ∀ l : List α,
      (sortDesc key l).filter (fun a => decide (key a = c)) =
        l.filter (fun a => decide (key a = c)) := by
  intro l
  induction l with
  | nil => rfl
  | cons x xs ih =>
    unfold sortDesc
    rw [insertDesc_filter_key]
    by_cases hxc : key x = c <;> simp [List.filter_cons, hxc, ih]

/-- C5: the ordering step of a run. The forum output
(`write_combined_csv`) is a permutation of the deduplicated rows, sorted
by `raw_metric` descending; records with equal keys keep their relative
input order (for every key value, filtering the output for that value
gives exactly the input subsequence). The same holds for the encyclopedia
sort on views. Concretely, three records with keys [10, 20, 10] sort to
[20, first 10, second 10]. -/
theorem C5_sort_descending_stable :
    ∀ (rows : List Reddit.Row) (real : List Wiki.Article),
      (Reddit.write_combined_csv rows).Perm (Reddit.dedupe rows) ∧
      (Reddit.write_combined_csv rows).Pairwise
        (fun a b => b.raw_metric ≤ a.raw_metric) ∧
      (∀ c : ℚ,
        (Reddit.write_combined_csv rows).filter (fun r => decide (r.raw_metric = c)) =
          (Reddit.dedupe rows).filter (fun r => decide (r.raw_metric = c))) ∧
      (Wiki.sort_by_views real).Perm real ∧
      (Wiki.sort_by_views real).Pairwise
        (fun a b => (b.raw_metric : ℚ) ≤ (a.raw_metric : ℚ)) ∧
      (∀ c : ℚ,
        (Wiki.sort_by_views real).filter (fun a => decide ((a.raw_metric : ℚ) = c)) =
          real.filter (fun a => decide ((a.raw_metric : ℚ) = c))) ∧
      (∀ a b c : Reddit.Row,
        a.raw_metric = 10 → b.raw_metric = 20 → c.raw_metric = 10 →
          sortDesc (fun r => r.raw_metric) [a, b, c] = [b, a, c]) := by
  intro rows real
  refine ⟨sortDesc_perm _ _, sortDesc_pairwise _ _, fun c => sortDesc_filter_key _ c _,
    sortDesc_perm _ _, sortDesc_pairwise _ _, fun c => sortDesc_filter_key _ c _, ?_⟩
  intro a b c ha hb hc
  have h1 : ¬ ((20 : ℚ) < 10) := by norm_num
  have h2 : (10 : ℚ) < 20 := by norm_num
  have h3 : ¬ ((10 : ℚ) < 10) := by norm_num
  simp [sortDesc, insertDesc, ha, hb, hc, h1, h2, h3]

/-! ### Score lemmas -/

namespace YT

lemma extractGo_score : ∀ (now : String) (videos : List Video) (t : Topic),
    t ∈ extractGo now videos → t.score = min ((t.raw_metric : ℚ) / 1000) 1000 := by
  intro now videos
  induction videos with
  | nil => intro t ht; simp [extractGo] at ht
  | cons v rest ih =>
    intro t ht
    unfold extractGo at ht
    split at ht
    · exact ih t ht
    · rcases List.mem_cons.mp ht with rfl | hm
      · rfl
      · exact ih t hm

end YT

/-- C2: for every record of a magnitude-style source the score is
`min(raw_metric / 1000, 1000)`: positionally for the encyclopedia pipeline
(topic i is scored from article i's views) and for every video topic; a
raw metric of 5,000,000 scores exactly 1000 (saturated) and one of 500
scores exactly 0.5. -/
theorem C2_score_min_formula :
    ∀ (clock : ℕ → String) (articles : List Wiki.Article) (videos : List YT.Video),
      (∀ (i : ℕ) (t : Wiki.Topic) (a : Wiki.Article),
        (Wiki.extract_trending_topics clock articles)[i]? = some t →
        articles[i]? = some a →
        t.score = min ((a.raw_metric : ℚ) / 1000) 1000) ∧
      (∀ t ∈ YT.extract_trending_topics clock videos,
        t.score = min ((t.raw_metric : ℚ) / 1000) 1000) ∧
      (∀ a : Wiki.Article, a.raw_metric = 5000000 →
        (Wiki.extract_trending_topics clock [a]).map Wiki.Topic.score = [1000]) ∧
      (∀ a : Wiki.Article, a.raw_metric = 500 →
        (Wiki.extract_trending_topics clock [a]).map Wiki.Topic.score = [1 / 2]) := by
  intro clock articles videos
  refine ⟨?_, ?_, ?_, ?_⟩
  · intro i t a ht ha
    unfold Wiki.extract_trending_topics at ht
    rw [List.getElem?_map, ha, Option.map_some'] at ht
    injection ht with ht
    subst ht
    rfl
  · intro t ht
    exact YT.extractGo_score (clock 0) videos t ht
  · intro a ha
    simp only [Wiki.extract_trending_topics, List.map_cons, List.map_nil, ha]
    rw [show ((5000000 : ℕ) : ℚ) / 1000 = 5000 by norm_num,
      min_eq_right (by norm_num : (1000 : ℚ) ≤ 5000)]
  · intro a ha
    simp only [Wiki.extract_trending_topics, List.map_cons, List.map_nil, ha]
    rw [show ((500 : ℕ) : ℚ) / 1000 = 1 / 2 by norm_num,
      min_eq_left (by norm_num : (1 / 2 : ℚ) ≤ 1000)]

/-! ### Slug: spec comparison -/

/-- The separator class named by the spec for the slug: whitespace or
underscore. -/
def isSep (c : Char) : Bool := isPySpace c || c = '_'

/-- The slug the spec describes (for comparison with the code's
`to_slug`): every run of whitespace and underscores becomes one hyphen. -/
def collapseRuns : List Char → List Char
  | [] => []
  | [c] => if isSep c then ['-'] else [c]
  | c1 :: c2 :: rest =>
    if isSep c1 && isSep c2 then collapseRuns (c2 :: rest)
    else (if isSep c1 then '-' else c1) :: collapseRuns (c2 :: rest)

/-- Spec-side slug: lower-case, then collapse separator runs. -/
def slug_spec (text : String) : String :=
  String.mk (collapseRuns (lowerList text.toList))

/-- C6 counterexample: on "A__B" the code's slug is "a--b" (one hyphen per
separator character) while the spec's run-collapsing slug is "a-b"; the
claimed equation is false there. -/
theorem C6_counterexample :
    Wiki.to_slug ("A__B") = "a--b" ∧ slug_spec ("A__B") = "a-b" ∧
    Wiki.to_slug ("A__B") ≠ slug_spec ("A__B") :=
  ⟨by decide, by decide, by decide⟩

/-- C6 amended: the encyclopedia slug equals the title lower-cased with
every space character and every underscore character each replaced by a
single hyphen — so a run of k separators yields k hyphens, and whitespace
other than the space character is left unchanged. (The video pipeline
derives its slug by a different rule, `YT.mkSlug`.) -/
theorem C6_slug_charwise :
    ∀ t : String,
      Wiki.to_slug t =
        String.mk ((lowerList t.toList).map
          fun c => if c = ' ' ∨ c = '_' then '-' else c) := by
  intro t
  unfold Wiki.to_slug replaceChar
  apply congrArg String.mk
  rw [List.map_map]
  apply List.map_congr_left
  intro c _
  by_cases h1 : c = ' '
  · subst h1
    simp [Function.comp]
  · by_cases h2 : c = '_'
    · subst h2
      simp [Function.comp, h1]
    · simp [Function.comp, h1, h2]

/-! ### observed_at lemmas -/

namespace Wiki

lemma extract_observed_const : ∀ (clock : ℕ → String) (articles : List Article) (t : Topic),
    t ∈ extract_trending_topics clock articles → t.observed_at = clock 0 := by
  intro clock articles t ht
  rcases List.mem_map.mp ht with ⟨a, _, rfl⟩
  rfl

end Wiki

namespace YT

lemma extractGo_observed : ∀ (now : String) (videos : List Video) (t : Topic),
    t ∈ extractGo now videos → t.observed_at = now := by
  intro now videos
  induction videos with
  | nil => intro t ht; simp [extractGo] at ht
  | cons v rest ih =>
    intro t ht
    unfold extractGo at ht
    split at ht
    · exact ih t ht
    · rcases List.mem_cons.mp ht with rfl | hm
      · rfl
      · exact ih t hm

end YT

namespace Reddit

lemma normalize_observed : ∀ (now tnow : ℚ) (kind : String) (items : List Item) (r : Row),
    r ∈ normalize_items now tnow kind items → r.observed_at = ⌊now⌋ := by
  intro now tnow kind items
  induction items with
  | nil => intro r hr; simp [normalize_items] at hr
  | cons d rest ih =>
    intro r hr
    unfold normalize_items at hr
    split at hr
    · exact ih r hr
    · rcases List.mem_cons.mp hr with rfl | hm
      · rfl
      · exact ih r hm

end Reddit

/-- The qualifying CSV row used to exercise the search pipeline's clock. -/
def volRow : GTrends.CsvRow := { searchVolume := some "99999", trends := some "A" }

/-- C7 counterexample: the search pipeline calls `datetime.now()` inside
the row loop, once per emitted record, so two records of one run can carry
different `observed_at` values; with the clock modelled as "x" on its
first read and "y" afterwards, the two emitted records differ. -/
theorem C7_counterexample :
    ∃ t1 t2 : GTrends.Trend,
      t1 ∈ GTrends.process_csv_to_schema ("US")
        (fun n => if n = 0 then "x" else "y") [volRow, volRow] ∧
      t2 ∈ GTrends.process_csv_to_schema ("US")
        (fun n => if n = 0 then "x" else "y") [volRow, volRow] ∧
      t1.observed_at ≠ t2.observed_at := by
  refine ⟨⟨"google_trends", "A", "https://www.google.com/search?q=A", "US", "x", 1⟩,
    ⟨"google_trends", "A", "https://www.google.com/search?q=A", "US", "y", 1⟩,
    by decide, by decide, by decide⟩

/-- C7 amended: the encyclopedia and video pipelines read the wall clock
once per run, and each call of the forum normalizer reads it once at
entry, so within each of those all records carry one identical
`observed_at`; the search pipeline re-reads the clock per emitted record,
so its records' `observed_at` values need not be equal. -/
theorem C7_observed_at_single_read :
    ∀ (clock : ℕ → String) (articles : List Wiki.Article) (videos : List YT.Video)
      (now tnow : ℚ) (kind : String) (items : List Reddit.Item),
      (∀ t1 ∈ Wiki.extract_trending_topics clock articles,
       ∀ t2 ∈ Wiki.extract_trending_topics clock articles,
        t1.observed_at = t2.observed_at) ∧
      (∀ t1 ∈ YT.extract_trending_topics clock videos,
       ∀ t2 ∈ YT.extract_trending_topics clock videos,
        t1.observed_at = t2.observed_at) ∧
      (∀ r1 ∈ Reddit.normalize_items now tnow kind items,
       ∀ r2 ∈ Reddit.normalize_items now tnow kind items,
        r1.observed_at = r2.observed_at) := by
  intro clock articles videos now tnow kind items
  refine ⟨?_, ?_, ?_⟩
  · intro t1 h1 t2 h2
    rw [Wiki.extract_observed_const clock articles t1 h1,
      Wiki.extract_observed_const clock articles t2 h2]
  · intro t1 h1 t2 h2
    rw [YT.extractGo_observed (clock 0) videos t1 h1,
      YT.extractGo_observed (clock 0) videos t2 h2]
  · intro r1 h1 r2 h2
    rw [Reddit.normalize_observed now tnow kind items r1 h1,
      Reddit.normalize_observed now tnow kind items r2 h2]

/-! ### Empty titles -/

namespace YT

lemma extractGo_title_nonempty : ∀ (now : String) (videos : List Video) (t : Topic),
    t ∈ extractGo now videos → t.title ≠ "" := by
  intro now videos
  induction videos with
  | nil => intro t ht; simp [extractGo] at ht
  | cons v rest ih =>
    intro t ht
    unfold extractGo at ht
    split at ht
    · exact ih t ht
    · next hne =>
      rcases List.mem_cons.mp ht with rfl | hm
      · exact hne
      · exact ih t hm

end YT

/-- A Reddit item with no title field at all (every optional field absent,
not stickied, not removed): it passes the skip guard. -/
def untitledItem : Reddit.Item :=
  { stickied := false, removed_by_category := none, title := none,
    permalink := none, url_overridden_by_dest := none, subreddit := none,
    created_utc := some 0, score := 0, num_comments := 0 }

/-- C8 counterexample: the forum normalizer has no empty-title check —
on a single titleless item it emits exactly one record, and that record's
trimmed title is empty, contradicting the claim for "any pipeline". -/
theorem C8_counterexample :
    (Reddit.normalize_items 3600 0 ("hot") [untitledItem]).map
      (fun r => String.mk (strip r.title.toList)) = [""] ∧
    (Reddit.normalize_items 3600 0 ("hot") [untitledItem]).length = 1 := by
  constructor
  · rfl
  · rfl

/-- C8 amended: the video pipeline drops every raw item whose trimmed
title is empty, so each of its records carries a non-empty (trimmed)
title; the forum and encyclopedia normalizers perform no such check and
can emit records with empty titles. -/
theorem C8_empty_title_skipped :
    ∀ (clock : ℕ → String) (videos : List YT.Video) (t : YT.Topic),
      t ∈ YT.extract_trending_topics clock videos → t.title ≠ "" := by
  intro clock videos t ht
  exact YT.extractGo_title_nonempty (clock 0) videos t ht

/-- A concrete video with a non-empty title for the C8 witness. -/
def namedVideo : YT.Video :=
  { id := some "abc", title := "Hello", viewCount := 0, channelTitle := "c",
    publishedAt := "p", description := "d" }

/-- The topic the video pipeline produces from `namedVideo` under a
constant clock. -/
def namedTopic : YT.Topic :=
  { source := "youtube",
    title := String.mk (strip ("Hello").toList),
    slug := YT.mkSlug (String.mk (strip ("Hello").toList)),
    url := "https://www.youtube.com/watch?v=" ++ YT.idText (some "abc"),
    region := "US",
    observed_at := "T",
    raw_metric := 0,
    score := min (((0 : ℕ) : ℚ) / 1000) 1000,
    channel := "c",
    published_at := "p",
    description := String.mk (("d").toList.take 200) }

theorem C8_witness : namedTopic.title ≠ "" :=
  C8_empty_title_skipped (fun _ => "T") [namedVideo] namedTopic (List.Mem.head _)

/-! ### raw_metric sign -/

namespace Reddit

lemma pyRound_nonneg {x : ℚ} (hx : 0 ≤ x) : 0 ≤ pyRound x := by
  unfold pyRound
  have h0 : (0 : ℤ) ≤ ⌊x⌋ := Int.floor_nonneg.mpr hx
  split_ifs <;> omega

lemma roundTo_nonneg {d : ℕ} {x : ℚ} (hx : 0 ≤ x) : 0 ≤ roundTo d x := by
  unfold roundTo
  apply div_nonneg
  · exact_mod_cast pyRound_nonneg (by positivity)
  · positivity

end Reddit

/-- A Reddit item with a negative score (downvoted below zero), created at
the clock instant itself so the age floor of 0.25 hours applies. -/
def downvotedItem : Reddit.Item :=
  { stickied := false, removed_by_category := none, title := some "t",
    permalink := none, url_overridden_by_dest := none, subreddit := some "s",
    created_utc := some 3600, score := -100, num_comments := 0 }

/-- C9 counterexample: a raw score of -100 at the 0.25-hour age floor
yields velocity -400, so the emitted record's raw_metric is negative,
contradicting "never negative". -/
theorem C9_counterexample :
    (Reddit.normalize_items 3600 0 ("hot") [downvotedItem]).map
      (fun r => r.raw_metric) = [-400] ∧ ((-400 : ℚ) < 0) := by
  constructor
  · simp only [Reddit.normalize_items, downvotedItem, Bool.false_or, List.map_cons,
      List.map_nil, Option.getD_some]
    norm_num [Reddit.truthyStr, Reddit.roundTo, Reddit.pyRound]
  · norm_num

/-- C9 amended: the forum velocity raw_metric
(`round(score / max(age_hours, 0.25), 4)`) is non-negative for every item
whose raw score is non-negative; a negative Reddit score produces a
negative raw_metric. (Encyclopedia views and video view counts are natural
numbers, and the search pipeline's raw_metric is the constant 1.) -/
theorem C9_raw_metric_nonneg :
    ∀ (now tnow : ℚ) (kind : String) (items : List Reddit.Item),
      (∀ d ∈ items, 0 ≤ d.score) →
      ∀ r ∈ Reddit.normalize_items now tnow kind items, 0 ≤ r.raw_metric := by
  intro now tnow kind items
  induction items with
  | nil => intro _ r hr; simp [Reddit.normalize_items] at hr
  | cons d rest ih =>
    intro hscore r hr
    unfold Reddit.normalize_items at hr
    split at hr
    · exact ih (fun x hx => hscore x (List.mem_cons_of_mem d hx)) r hr
    · rcases List.mem_cons.mp hr with rfl | hm
      · show 0 ≤ Reddit.roundTo 4
          (d.score / max ((now - d.created_utc.getD tnow) / 3600) (1 / 4))
        apply Reddit.roundTo_nonneg
        apply div_nonneg (hscore d (List.mem_cons_self d rest))
        have h4 : (0 : ℚ) < 1 / 4 := by norm_num
        exact le_of_lt (lt_of_lt_of_le h4 (le_max_right _ _))
      · exact ih (fun x hx => hscore x (List.mem_cons_of_mem d hx)) r hm

/-- A Reddit item with a positive score for the C9 witness. -/
def upvotedItem : Reddit.Item :=
  { stickied := false, removed_by_category := none, title := some "t",
    permalink := none, url_overridden_by_dest := none, subreddit := some "s",
    created_utc := some 3600, score := 100, num_comments := 0 }

/-- The row the forum normalizer produces from `upvotedItem` at clock 3600. -/
def upvotedRow : Reddit.Row :=
  { source := "reddit", title := "t", url := "", region := "GLOBAL",
    observed_at := ⌊(3600 : ℚ)⌋,
    raw_metric := Reddit.roundTo 4
      ((100 : ℚ) / max (((3600 : ℚ) - 3600) / 3600) (1 / 4)),
    subreddit := "s", score := Reddit.truncInt 100,
    age_hours := Reddit.roundTo 2 (max (((3600 : ℚ) - 3600) / 3600) (1 / 4)),
    num_comments := 0, listing_type := "hot" }

theorem C9_witness : 0 ≤ upvotedRow.raw_metric :=
  C9_raw_metric_nonneg 3600 0 ("hot") [upvotedItem]
    (by
      intro d hd
      rcases List.mem_singleton.mp hd with rfl
      norm_num [upvotedItem])
    upvotedRow (List.Mem.head _)

/-! ### Search pipeline: threshold and presence marker -/

namespace GTrends

lemma processRows_titles (region : String) (clock : ℕ → String) :
    ∀ (rows : List CsvRow) (k : ℕ),
      (processRows region clock k rows).map (fun t => t.title) =
        (rows.filter fun row =>
          decide (MIN_SEARCH_VOLUME ≤
            parse_search_volume (row.searchVolume.getD ("0")))).map
          (fun row => row.trends.getD ("Unknown")) := by
  intro rows
  induction rows with
  | nil => intro k; rfl
  | cons row rest ih =>
    intro k
    unfold processRows
    split
    · next hq => simp [List.filter_cons, hq, ih]
    · next hq => simp [List.filter_cons, hq, ih]

lemma processRows_raw_metric (region : String) (clock : ℕ → String) :
    ∀ (rows : List CsvRow) (k : ℕ) (t : Trend),
      t ∈ processRows region clock k rows → t.raw_metric = 1 := by
  intro rows
  induction rows with
  | nil => intro k t ht; simp [processRows] at ht
  | cons row rest ih =>
    intro k t ht
    unfold processRows at ht
    split at ht
    · rcases List.mem_cons.mp ht with rfl | hm
      · rfl
      · exact ih (k + 1) t hm
    · exact ih k t ht

end GTrends

/-- C10: the search pipeline emits a record for a CSV row exactly when the
row's parsed search volume reaches the fixed threshold of 5000 — the
emitted titles are, in order, precisely the `Trends` fields of the
qualifying rows — and every emitted record's raw_metric is the constant 1
(a presence marker), never the parsed volume. -/
theorem C10_volume_threshold_presence :
    ∀ (region : String) (clock : ℕ → String) (rows : List GTrends.CsvRow),
      GTrends.MIN_SEARCH_VOLUME = 5000 ∧
      ((GTrends.process_csv_to_schema region clock rows).map (fun t => t.title) =
        (rows.filter fun row =>
          decide (GTrends.MIN_SEARCH_VOLUME ≤
            parse_search_volume (row.searchVolume.getD ("0")))).map
          (fun row => row.trends.getD ("Unknown"))) ∧
      (∀ t ∈ GTrends.process_csv_to_schema region clock rows, t.raw_metric = 1) := by
  intro region clock rows
  exact ⟨rfl, GTrends.processRows_titles region clock rows 0,
    fun t ht => GTrends.processRows_raw_metric region clock rows 0 t ht⟩

end TrendCsv
